import Mathlib

/-!
A shallow embedding, in Lean 4, of the Lightstreamer TLCP client of the
`iss-exporter` repository: the `Values` delta decoder (`lightstreamer/values.go`),
the TLCP line parser (`lightstreamer/internal/client/messages.go`), and the
session-level operations `ClientSession.handleUpdate`, `ClientSession.Subscribe`
and `lsError` (`lightstreamer/client.go`).

Go strings are modelled as `List Char` (`GoStr`); Go `int` as unbounded `Int`
(no claim exercises 64-bit overflow); a nil `*Value` slot as `none`.
A Go runtime panic (slice index out of range, nil-pointer dereference) is a
distinguished result constructor, never a Lean-side error.
-/

namespace ISS

/-- Go strings, modelled at the character level. -/
abbrev GoStr := List Char

/-- Injects a Lean string literal into the model. -/
def str (s : String) : GoStr := s.data

/-- `strings.Split(line, sep)` for a one-character separator: always returns at
least one (possibly empty) part. -/
def splitOn (sep : Char) : GoStr → List GoStr
  | [] => [[]]
  | c :: rest =>
    match splitOn sep rest with
    | [] => [[c]]
    | s :: ss => if c = sep then [] :: s :: ss else (c :: s) :: ss

/-- `strings.TrimSuffix` / `bytes.TrimSuffix` for a one-character suffix:
removes one trailing `c` if present. -/
def trimOne (s : GoStr) (c : Char) : GoStr :=
  match s.reverse with
  | [] => s
  | d :: rest => if d = c then rest.reverse else s

/-- Substring test (used to express "the error carries the line"). -/
def containsSubstr (hay needle : GoStr) : Bool :=
  match hay with
  | [] => needle = []
  | _ :: rest => needle.isPrefixOf hay || containsSubstr rest needle

/-- Decimal digit test, as in Go's `strconv`. -/
def isDigit (c : Char) : Bool := '0' ≤ c && c ≤ '9'

/-- Numeric value of a decimal digit. -/
def digitVal (c : Char) : Nat := c.toNat - '0'.toNat

/-- Parses a non-empty all-digit string to a natural number
(the digit loop of Go's `strconv.ParseInt`). -/
def parseDigits : GoStr → Option Nat
  | [] => none
  | ds => ds.foldlM (fun acc c => if isDigit c then some (acc * 10 + digitVal c) else none) 0

/-- Model of Go's `strconv.Atoi`: optional sign, then one or more decimal
digits. Modelled over unbounded `Int`; the `int64` range check of the Go
implementation is not modelled (no claim exercises overflow). -/
def goAtoi (s : GoStr) : Option Int :=
  match s with
  | '+' :: rest => (parseDigits rest).map (fun n => (n : Int))
  | '-' :: rest => (parseDigits rest).map (fun n => -(n : Int))
  | _ => (parseDigits s).map (fun n => (n : Int))

/-- Error text of Go's `strconv.Atoi` on a syntax error
(`strconv.NumError.Error`), with `%q` rendered as plain double quotes. -/
def atoiErr (s : GoStr) : GoStr :=
  str "strconv.Atoi: parsing \"" ++ s ++ str "\": invalid syntax"

/-- Hex digit test, as in Go's `net/url.ishex`. -/
def isHex (c : Char) : Bool :=
  ('0' ≤ c && c ≤ '9') || ('a' ≤ c && c ≤ 'f') || ('A' ≤ c && c ≤ 'F')

/-- Hex digit value, as in Go's `net/url.unhex`. -/
def unhex (c : Char) : Nat :=
  if '0' ≤ c && c ≤ '9' then c.toNat - '0'.toNat
  else if 'a' ≤ c && c ≤ 'f' then c.toNat - 'a'.toNat + 10
  else if 'A' ≤ c && c ≤ 'F' then c.toNat - 'A'.toNat + 10
  else 0

/-- Model of Go's `url.PathUnescape`: each `%XX` escape (two hex digits)
becomes the byte `XX`; a `%` not followed by two hex digits is an error;
`+` is left unchanged in path mode. Bytes are modelled as characters. -/
def pathUnescape : GoStr → Option GoStr
  | [] => some []
  | '%' :: a :: b :: rest =>
    if isHex a && isHex b then
      (pathUnescape rest).map (fun r => Char.ofNat (unhex a * 16 + unhex b) :: r)
    else none
  | '%' :: _ => none
  | c :: rest => (pathUnescape rest).map (fun r => c :: r)

/-- Decimal rendering of a natural number (Go `%d`). -/
def natToStr (n : Nat) : GoStr := Nat.toDigits 10 n

/-- Decimal rendering of an integer (Go `%d`). -/
def intToStr (n : Int) : GoStr :=
  if n < 0 then '-' :: natToStr n.natAbs else natToStr n.natAbs

/-- `Values` (`values.go`): an ordered sequence of nullable string slots;
`none` models a nil `*Value`. -/
abbrev Values := List (Option GoStr)

/-- `Values.String` (`values.go`): renders slots joined by commas, a nil slot
as `<nil>` (Go `%v` of a nil pointer inside `strings.Join` via the explicit
nil check in the source). -/
def Values.string (v : Values) : GoStr :=
  match v with
  | [] => []
  | [x] => x.getD (str "<nil>")
  | x :: rest => x.getD (str "<nil>") ++ [','] ++ Values.string rest

/-- Result of `Values.Update`: a new snapshot, a Go `error`, or a Go runtime
panic (slice index out of range), which the Go function does not return but
raises. -/
inductive UpdateResult where
  | ok (v : Values)
  | err (msg : GoStr)
  | oob
deriving DecidableEq, Repr

/-- `next[idx] = x` on a Go slice: in range, the updated slice; out of range
(negative or past the end), a runtime panic (`none`). -/
def writeSlot (next : Values) (idx : Int) (val : Option GoStr) : Option Values :=
  if 0 ≤ idx ∧ idx < (next.length : Int) then some (next.set idx.toNat val) else none

/-- The token loop of `Values.Update` (`values.go`): `n` is `len(v)` of the
(possibly re-made) prior snapshot, `next` the copy being written, `idx` the
cursor. The if-chain mirrors the Go `switch` case order. -/
def updateLoop (n : Nat) : Values → Int → List GoStr → UpdateResult
  | next, idx, [] =>
    if idx ≠ (n : Int) then .err (str "not enough values in update") else .ok next
  | next, idx, value :: rest =>
    if idx > (n : Int) - 1 then .err (str "invalid value")
    else if value = [] then updateLoop n next (idx + 1) rest
    else if value = ['#'] then
      match writeSlot next idx none with
      | none => .oob
      | some next1 => updateLoop n next1 (idx + 1) rest
    else if value = ['$'] then
      match writeSlot next idx (some []) with
      | none => .oob
      | some next1 => updateLoop n next1 (idx + 1) rest
    else if value.head? = some '^' then
      match goAtoi value.tail with
      | none => .err (str "invalid step value: " ++ atoiErr value.tail)
      | some step => updateLoop n next (idx + step - 1 + 1) rest
    else
      match writeSlot next idx (some ((pathUnescape value).getD value)) with
      | none => .oob
      | some next1 => updateLoop n next1 (idx + 1) rest

/-- `Values.Update` (`values.go`): if the prior snapshot is empty it is
re-made with the update's length; the loop then writes a copy of it. -/
def Values.update (v : Values) (values : List GoStr) : UpdateResult :=
  let v1 : Values := if v.length = 0 then List.replicate values.length none else v
  updateLoop v1.length v1 0 values

/-- Is the result a successful snapshot? -/
def UpdateResult.isOk : UpdateResult → Bool
  | .ok _ => true
  | _ => false

/-- Is the result a Go `error` return? -/
def UpdateResult.isErr : UpdateResult → Bool
  | .err _ => true
  | _ => false

/-- Is the result a runtime panic? -/
def UpdateResult.isOob : UpdateResult → Bool
  | .oob => true
  | _ => false

/-! ### Spec-side definitions (for refinement claims)

These follow the specification's words, not the source, and exist only to be
compared against the source-derived definitions above. -/

/-- Modelled from the spec: "the body after trimming a trailing CR/LF" —
remove one trailing CRLF pair, or a lone trailing LF or CR. -/
def specTrimCRLF (s : GoStr) : GoStr :=
  match s.reverse with
  | [] => s
  | d :: rest =>
    if d = '\n' then
      match rest with
      | [] => rest.reverse
      | e :: rest2 => if e = '\r' then rest2.reverse else rest.reverse
    else if d = '\r' then rest.reverse
    else s

/-- Modelled from the spec: how far one token advances the cursor — a caret
token by its parsed step (inclusive of the current position), every other
token by one. -/
def tokenAdvance (tok : GoStr) : Int :=
  if tok.head? = some '^' then (goAtoi tok.tail).getD 0 else 1

/-- Modelled from the spec: the cursor position after consuming the first `k`
tokens, starting from zero. -/
def cursorAfter : List GoStr → Nat → Int
  | _, 0 => 0
  | [], _ + 1 => 0
  | tok :: rest, k + 1 => tokenAdvance tok + cursorAfter rest k

/-- A caret token whose suffix parses as a non-negative integer (and any
non-caret token). -/
def caretStepsParse (tok : GoStr) : Bool :=
  if tok.head? = some '^' then ((goAtoi tok.tail).map (fun k => decide (0 ≤ k))).getD false
  else true

/-- A token that is not a caret with a negative parsed step (caret tokens
whose suffix fails to parse are allowed). -/
def notNegCaret (tok : GoStr) : Bool :=
  if tok.head? = some '^' then ((goAtoi tok.tail).map (fun k => decide (0 ≤ k))).getD true
  else true

/-- Did a Go function return a non-nil error? -/
def exErr {α : Type} (e : Except GoStr α) : Bool :=
  match e with
  | .error _ => true
  | .ok _ => false

/-! ### Floats -/

/-- A Go `float64` as far as the claims need it: infinities, NaN, or an exact
decimal value. Rounding to binary is not modelled (no claim depends on it). -/
inductive GoFloat where
  | inf (neg : Bool)
  | nan
  | num (q : Rat)
deriving DecidableEq, Repr

/-- Lower-cases a string (`strconv` accepts case-insensitive `inf`/`nan`). -/
def toLower (s : GoStr) : GoStr := s.map Char.toLower

/-- Numeric value of a digit string. -/
def digitsVal (ds : GoStr) : Nat := ds.foldl (fun a c => a * 10 + digitVal c) 0

/-- The decimal-mantissa-and-exponent grammar of Go's `strconv.ParseFloat`:
`digits [. digits] [e|E [sign] digits]` with at least one mantissa digit.
Hex-float forms and digit-group underscores are not modelled (no claim
exercises them). -/
def parseDecimalFloat (neg : Bool) (body : GoStr) : Option GoFloat :=
  let intPart := body.takeWhile isDigit
  let rest1 := body.dropWhile isDigit
  let (fracPart, rest2) :=
    match rest1 with
    | '.' :: r => (r.takeWhile isDigit, r.dropWhile isDigit)
    | _ => ([], rest1)
  if intPart = [] ∧ fracPart = [] then none
  else
    let mantissa : Rat := (digitsVal (intPart ++ fracPart) : Rat) / (10 : Rat) ^ fracPart.length
    let signed : Rat := if neg then -mantissa else mantissa
    match rest2 with
    | [] => some (.num signed)
    | e :: rest3 =>
      if e = 'e' ∨ e = 'E' then
        match goAtoi rest3 with
        | some ex => some (.num (signed * (10 : Rat) ^ ex))
        | none => none
      else none

/-- Model of Go's `strconv.ParseFloat` (decimal forms, `inf`, `nan`). -/
def goParseFloat (s : GoStr) : Option GoFloat :=
  match s with
  | '+' :: rest =>
    if toLower rest = str "inf" ∨ toLower rest = str "infinity" then some (.inf false)
    else if toLower rest = str "nan" then some .nan
    else parseDecimalFloat false rest
  | '-' :: rest =>
    if toLower rest = str "inf" ∨ toLower rest = str "infinity" then some (.inf true)
    else if toLower rest = str "nan" then some .nan
    else parseDecimalFloat true rest
  | _ =>
    if toLower s = str "inf" ∨ toLower s = str "infinity" then some (.inf false)
    else if toLower s = str "nan" then some .nan
    else parseDecimalFloat false s

/-- Error text of `strconv.ParseFloat` on a syntax error. -/
def parseFloatErr (s : GoStr) : GoStr :=
  str "strconv.ParseFloat: parsing \"" ++ s ++ str "\": invalid syntax"

/-- `parseFloatWithUnlimited` (`messages.go`): `"unlimited"` means `+Inf`,
everything else goes through `strconv.ParseFloat`. -/
def parseFloatWithUnlimited (value : GoStr) : Except GoStr GoFloat :=
  if value = str "unlimited" then .ok (.inf false)
  else
    match goParseFloat value with
    | some f => .ok f
    | none => .error (parseFloatErr value)

/-! ### Message parser (`lightstreamer/internal/client/messages.go`) -/

/-- The typed message payloads of the TLCP parser (`messages.go`). One
constructor per `...Data` struct of the source. -/
inductive MsgData where
  | conok (sessionID controlLink : GoStr) (requestLimit keepAliveTime : Int)
  | servname (serverName : GoStr)
  | clientip (clientIP : GoStr)
  | noop (preamble : List GoStr)
  | cons (bandwidth : GoFloat)
  | sync (secondsSinceInitialHeader : Int)
  | loopMsg (expectedDelay : Int)
  | endMsg (code : Int) (message : GoStr)
  | u (subscriptionID item : Int) (values : List GoStr)
  | subok (subscriptionID items fields : Int)
  | conf (subscriptionID : Int) (maxFrequency : GoFloat) (filtered : Bool)
  | prog (progressive : Int)
  | unsupported (values : List GoStr)
  | reqok (requestID : Int)
  | reqerr (requestID errorCode : Int) (errorMessage : GoStr)
deriving DecidableEq, Repr

/-- `Message` (`messages.go`): payload (`nil` for PROBE, hence an `Option`)
plus the raw message type token. -/
structure Message where
  data : Option MsgData
  messageType : GoStr
deriving DecidableEq, Repr

/-- Argument-count error text: `"expected %d arguments, got %d"` (the
singular/plural wording follows each Go parser verbatim). -/
def errArgs (words : String) (got : Nat) : GoStr :=
  str words ++ natToStr got

/-- `"invalid <field> %q: %w"` with a wrapped `strconv.Atoi` error. -/
def errInvalidInt (what : String) (s : GoStr) : GoStr :=
  str ("invalid " ++ what ++ " \"") ++ s ++ str "\": " ++ atoiErr s

/-- `"invalid <field> %q: %w"` with a wrapped `strconv.ParseFloat` error. -/
def errInvalidFloat (what : String) (s : GoStr) : GoStr :=
  str ("invalid " ++ what ++ " \"") ++ s ++ str "\": " ++ parseFloatErr s

/-- `parseCONOK` (`messages.go`). -/
def parseCONOK : List GoStr → Except GoStr (Option MsgData)
  | [sid, rl, ka, cl] =>
    match goAtoi rl with
    | none => .error (errInvalidInt "request limit" rl)
    | some r =>
      match goAtoi ka with
      | none => .error (errInvalidInt "keep alive time" ka)
      | some k => .ok (some (.conok sid cl r k))
  | parts => .error (errArgs "expected 4 arguments, got " parts.length)

/-- `parseSERVNAME` (`messages.go`). -/
def parseSERVNAME : List GoStr → Except GoStr (Option MsgData)
  | [name] => .ok (some (.servname name))
  | parts => .error (errArgs "expected 1 argument, got " parts.length)

/-- `parseCLIENTIP` (`messages.go`). -/
def parseCLIENTIP : List GoStr → Except GoStr (Option MsgData)
  | [ip] => .ok (some (.clientip ip))
  | parts => .error (errArgs "expected 1 argument, got " parts.length)

/-- `parseNOOP` (`messages.go`): always succeeds, keeps the raw parts. -/
def parseNOOP (parts : List GoStr) : Except GoStr (Option MsgData) :=
  .ok (some (.noop parts))

/-- `parseCONS` (`messages.go`). -/
def parseCONS : List GoStr → Except GoStr (Option MsgData)
  | [bw] =>
    match parseFloatWithUnlimited bw with
    | .error e => .error (str "invalid bandwidth \"" ++ bw ++ str "\": " ++ e)
    | .ok f => .ok (some (.cons f))
  | parts => .error (errArgs "expected 1 argument, got " parts.length)

/-- `parseSYNC` (`messages.go`). -/
def parseSYNC : List GoStr → Except GoStr (Option MsgData)
  | [secs] =>
    match goAtoi secs with
    | none => .error (errInvalidInt "second since initial header" secs)
    | some n => .ok (some (.sync n))
  | parts => .error (errArgs "expected 1 argument, got " parts.length)

/-- `parsePROBE` (`messages.go`): no payload (`nil` data). -/
def parsePROBE (_ : List GoStr) : Except GoStr (Option MsgData) :=
  .ok none

/-- `parseLOOP` (`messages.go`). -/
def parseLOOP : List GoStr → Except GoStr (Option MsgData)
  | [delay] =>
    match goAtoi delay with
    | none => .error (errInvalidInt "expected delay" delay)
    | some n => .ok (some (.loopMsg n))
  | parts => .error (errArgs "expected 1 argument, got " parts.length)

/-- `parseEND` (`messages.go`). -/
def parseEND : List GoStr → Except GoStr (Option MsgData)
  | [code, msg] =>
    match goAtoi code with
    | none => .error (errInvalidInt "code" code)
    | some n => .ok (some (.endMsg n msg))
  | parts => .error (errArgs "expected 2 arguments, got " parts.length)

/-- `parseU` (`messages.go`): the third argument is pipe-split into the
update tokens. -/
def parseU : List GoStr → Except GoStr (Option MsgData)
  | [sid, item, vals] =>
    match goAtoi sid with
    | none => .error (errInvalidInt "subscription ID" sid)
    | some s =>
      match goAtoi item with
      | none => .error (errInvalidInt "item" item)
      | some i => .ok (some (.u s i (splitOn '|' vals)))
  | parts => .error (errArgs "expected 3 arguments, got " parts.length)

/-- `parseSUBOK` (`messages.go`). -/
def parseSUBOK : List GoStr → Except GoStr (Option MsgData)
  | [sid, items, fields] =>
    match goAtoi sid with
    | none => .error (errInvalidInt "subscription ID" sid)
    | some s =>
      match goAtoi items with
      | none => .error (errInvalidInt "item" items)
      | some i =>
        match goAtoi fields with
        | none => .error (errInvalidInt "field count" fields)
        | some f => .ok (some (.subok s i f))
  | parts => .error (errArgs "expected 3 arguments, got " parts.length)

/-- `parseCONF` (`messages.go`). -/
def parseCONF : List GoStr → Except GoStr (Option MsgData)
  | [sid, freq, filt] =>
    match goAtoi sid with
    | none => .error (errInvalidInt "subscription ID" sid)
    | some s =>
      match parseFloatWithUnlimited freq with
      | .error e => .error (str "invalid max frequency \"" ++ freq ++ str "\": " ++ e)
      | .ok f =>
        if filt = str "filtered" then .ok (some (.conf s f true))
        else if filt = str "unfiltered" then .ok (some (.conf s f false))
        else .error (str "invalid filtered option \"" ++ filt ++ str "\"")
  | parts => .error (errArgs "expected 3 arguments, got " parts.length)

/-- `parsePROG` (`messages.go`). -/
def parsePROG : List GoStr → Except GoStr (Option MsgData)
  | [p] =>
    match goAtoi p with
    | none => .error (errInvalidInt "progress" p)
    | some n => .ok (some (.prog n))
  | parts => .error (errArgs "expected 1 argument, got " parts.length)

/-- `parseREQOK` (`messages.go`). -/
def parseREQOK : List GoStr → Except GoStr (Option MsgData)
  | [rid] =>
    match goAtoi rid with
    | none => .error (errInvalidInt "request ID" rid)
    | some n => .ok (some (.reqok n))
  | parts => .error (errArgs "expected 3 argument, got " parts.length)

/-- `parseREQERR` (`messages.go`). -/
def parseREQERR : List GoStr → Except GoStr (Option MsgData)
  | [rid, code, msg] =>
    match goAtoi rid with
    | none => .error (errInvalidInt "request ID" rid)
    | some r =>
      match goAtoi code with
      | none => .error (errInvalidInt "error code" code)
      | some c => .ok (some (.reqerr r c msg))
  | parts => .error (errArgs "expected 3 argument, got " parts.length)

/-- `sessionMessageParsers` (`messages.go`): kind → parser. -/
def sessionMessageParsers (kind : GoStr) :
    Option (List GoStr → Except GoStr (Option MsgData)) :=
  if kind = str "CONOK" then some parseCONOK
  else if kind = str "SERVNAME" then some parseSERVNAME
  else if kind = str "CLIENTIP" then some parseCLIENTIP
  else if kind = str "NOOP" then some parseNOOP
  else if kind = str "CONS" then some parseCONS
  else if kind = str "SYNC" then some parseSYNC
  else if kind = str "PROBE" then some parsePROBE
  else if kind = str "LOOP" then some parseLOOP
  else if kind = str "END" then some parseEND
  else if kind = str "U" then some parseU
  else if kind = str "SUBOK" then some parseSUBOK
  else if kind = str "CONF" then some parseCONF
  else if kind = str "PROG" then some parsePROG
  else none

/-- `controlMessageParsers` (`messages.go`). -/
def controlMessageParsers (kind : GoStr) :
    Option (List GoStr → Except GoStr (Option MsgData)) :=
  if kind = str "REQOK" then some parseREQOK
  else if kind = str "REQERR" then some parseREQERR
  else none

/-- `parseMessage` (`messages.go`): split the line on commas, look up the
kind, run its parser; a parser error is wrapped as `"parse: %w"`; an unknown
kind yields the `unsupported` variant without error. -/
def parseMessage (line : GoStr)
    (parsers : GoStr → Option (List GoStr → Except GoStr (Option MsgData))) :
    Except GoStr Message :=
  match splitOn ',' line with
  | [] => .error (str "parse: ")  -- unreachable: splitOn yields at least one part
  | p0 :: rest =>
    match parsers p0 with
    | some f =>
      match f rest with
      | .error e => .error (str "parse: " ++ e)
      | .ok d => .ok ⟨d, p0⟩
    | none => .ok ⟨some (.unsupported rest), p0⟩

/-- `ParseSessionMessage` (`messages.go`). -/
def ParseSessionMessage (line : GoStr) : Except GoStr Message :=
  parseMessage line sessionMessageParsers

/-- `ParseControlMessage` (`messages.go`). -/
def ParseControlMessage (line : GoStr) : Except GoStr Message :=
  parseMessage line controlMessageParsers

/-! ### Session-level operations (`lightstreamer/client.go`) -/

/-- Lookup in a Go map modelled as an association list. -/
def mapLookup {α : Type} (m : List (Int × α)) (k : Int) : Option α :=
  match m with
  | [] => none
  | (k1, v1) :: rest => if k1 = k then some v1 else mapLookup rest k

/-- Insert/replace in a Go map modelled as an association list. -/
def mapSet {α : Type} (m : List (Int × α)) (k : Int) (v : α) : List (Int × α) :=
  match m with
  | [] => [(k, v)]
  | (k1, v1) :: rest => if k1 = k then (k, v) :: rest else (k1, v1) :: mapSet rest k v

/-- `subscription` (`client.go`): the per-item Values table. The `onUpdate`
callback is a side effect; its invocation is modelled as data in the results
below rather than as a stored function. -/
structure Subscription where
  last : List (Int × Values)
deriving DecidableEq, Repr

/-- `client.UData` (`messages.go`), as consumed by `handleUpdate`. -/
structure UData where
  values : List GoStr
  subscriptionID : Int
  item : Int
deriving DecidableEq, Repr

/-- Result of `subscription.update` (`client.go`): on success the new table
and the callback invocation `(item, next)`; on a `Values.Update` error, the
error with no state change and no callback; `nilDeref` models the Go runtime
panic of calling `update` on a nil `*subscription` (its body reads `s.last`);
`oob` propagates a `Values.Update` panic. -/
inductive SubUpdateResult where
  | ok (s : Subscription) (cb : Int × Values)
  | err (e : GoStr)
  | nilDeref
  | oob
deriving DecidableEq, Repr

/-- `subscription.update` (`client.go`), on a possibly-nil receiver. A nil
map lookup `s.last[item]` yields the zero value (an empty snapshot). -/
def subscriptionUpdate : Option Subscription → Int → List GoStr → SubUpdateResult
  | none, _, _ => .nilDeref
  | some s, item, values =>
    match Values.update ((mapLookup s.last item).getD []) values with
    | .ok next => .ok ⟨mapSet s.last item next⟩ (item, next)
    | .err e => .err e
    | .oob => .oob

/-- Result of `ClientSession.handleUpdate` (`client.go`): the registry after
the message, the callback invocation if any, and whether the
"no subscription found" warning was logged; `crash` models a runtime panic
escaping the reader. -/
inductive HandleResult where
  | ok (subs : List (Int × Subscription)) (cb : Option (Int × Values)) (warned : Bool)
  | crash (warned : Bool)
deriving DecidableEq, Repr

/-- `ClientSession.handleUpdate` (`client.go`): looks the subscription up,
logs a warning when it is missing, then unconditionally calls
`sub.update(data.Item, data.Values)` (the source has no early return), and
discards the returned error. -/
def handleUpdate (subs : List (Int × Subscription)) (d : UData) : HandleResult :=
  let sub := mapLookup subs d.subscriptionID
  let warned := sub.isNone
  match subscriptionUpdate sub d.item d.values with
  | .ok s1 cb => .ok (mapSet subs d.subscriptionID s1) (some cb) warned
  | .err _ => .ok subs none warned
  | .nilDeref => .crash warned
  | .oob => .crash warned

/-- The session state touched by `Subscribe` (`client.go`): the atomic
session id (`nil` before the first CONOK), the subscription registry, and the
two atomic counters. -/
structure SessionState where
  sessionID : Option GoStr
  subscriptions : List (Int × Subscription)
  subID : Int
  reqID : Int
deriving DecidableEq, Repr

deriving instance DecidableEq for Except

/-- Outcome of `Subscribe`: the Go return value, the state after the call,
and the number of control POSTs issued. -/
structure SubscribeOutcome where
  result : Except GoStr Unit
  state : SessionState
  posts : Nat
deriving DecidableEq, Repr

/-- `ClientSession.Subscribe` (`client.go`), with the control endpoint's
response body passed as an oracle (the HTTP transport itself is not
modelled; the request parameters are application data no claim inspects).
The source: a nil session id returns `"no session"` before any I/O;
otherwise `addSubscription` allocates ids and POSTs, the reply is trimmed of
a trailing LF then CR, parsed as a control message, and REQOK registers the
subscription, REQERR maps to `"%d: %s"`, anything else to a protocol error. -/
def subscribe (st : SessionState) (response : GoStr) : SubscribeOutcome :=
  match st.sessionID with
  | none => ⟨.error (str "no session"), st, 0⟩
  | some _ =>
    let subID := st.subID + 1
    let st1 : SessionState := { st with subID := subID, reqID := st.reqID + 1 }
    let body := trimOne (trimOne response '\n') '\r'
    match ParseControlMessage body with
    | .error e => ⟨.error (str "unexpected response: " ++ e), st1, 1⟩
    | .ok msg =>
      match msg.data with
      | some (.reqok _) =>
        ⟨.ok (), { st1 with subscriptions := mapSet st1.subscriptions subID ⟨[]⟩ }, 1⟩
      | some (.reqerr _ code emsg) =>
        ⟨.error (intToStr code ++ str ": " ++ emsg), st1, 1⟩
      | _ =>
        ⟨.error (str "subscription failed: unexpected response type \"" ++
          msg.messageType ++ str "\""), st1, 1⟩

/-! ### HTTP error mapping (`client.go`) -/

/-- The parts of an `http.Response` that `lsError` reads. -/
structure HTTPResponse where
  statusCode : Nat
  status : GoStr
  body : GoStr
deriving DecidableEq, Repr

/-- Model of `net/http.StatusText` for the codes exercised here; unknown
codes yield the empty string, as in Go. -/
def statusText (code : Nat) : GoStr :=
  if code = 200 then str "OK"
  else if code = 400 then str "Bad Request"
  else if code = 401 then str "Unauthorized"
  else if code = 403 then str "Forbidden"
  else if code = 404 then str "Not Found"
  else if code = 500 then str "Internal Server Error"
  else if code = 503 then str "Service Unavailable"
  else []

/-- `lsError` (`client.go`): trim a trailing LF then CR off the body; a
non-empty remainder becomes `"lightstreamer: <body>"`, otherwise
`"http: <code> <status-or-text>"` (`cmp.Or` of `resp.Status` and
`http.StatusText`). -/
def lsError (resp : HTTPResponse) : GoStr :=
  let body := trimOne (trimOne resp.body '\n') '\r'
  if body ≠ [] then str "lightstreamer: " ++ body
  else
    str "http: " ++ natToStr resp.statusCode ++ [' '] ++
      (if resp.status ≠ [] then resp.status else statusText resp.statusCode)

/-- The non-OK check in `ClientSession.call` (`client.go`): any status other
than 200 closes the body and returns `lsError`. -/
def callStatus (resp : HTTPResponse) : Except GoStr GoStr :=
  if resp.statusCode ≠ 200 then .error (lsError resp) else .ok resp.body

/-! ### Helper lemmas -/

theorem writeSlot_length {next : Values} {idx : Int} {val : Option GoStr} {next1 : Values}
    (h : writeSlot next idx val = some next1) : next1.length = next.length := by
  unfold writeSlot at h
  split at h
  · cases h
    simp
  · cases h

theorem updateLoop_ok_length (n : Nat) (vals : List GoStr) :
    ∀ (next : Values) (idx : Int) (out : Values),
      next.length = n → updateLoop n next idx vals = .ok out → out.length = n := by
  induction vals with
  | nil =>
    intro next idx out hlen h
    simp only [updateLoop] at h
    split at h
    · cases h
    · cases h
      exact hlen
  | cons value rest ih =>
    intro next idx out hlen h
    simp only [updateLoop] at h
    split at h
    · cases h
    split at h
    · exact ih next (idx + 1) out hlen h
    split at h
    · split at h
      · cases h
      · rename_i next1 hw
        exact ih next1 (idx + 1) out ((writeSlot_length hw).trans hlen) h
    split at h
    · split at h
      · cases h
      · rename_i next1 hw
        exact ih next1 (idx + 1) out ((writeSlot_length hw).trans hlen) h
    split at h
    · split at h
      · cases h
      · rename_i step hstep
        exact ih next (idx + step - 1 + 1) out hlen h
    · split at h
      · cases h
      · rename_i next1 hw
        exact ih next1 (idx + 1) out ((writeSlot_length hw).trans hlen) h

theorem mapLookup_mapSet_self {α : Type} (m : List (Int × α)) (k : Int) (v : α) :
    mapLookup (mapSet m k v) k = some v := by
  induction m with
  | nil => simp [mapSet, mapLookup]
  | cons p rest ih =>
    obtain ⟨k1, v1⟩ := p
    by_cases hk : k1 = k
    · simp [mapSet, mapLookup, hk]
    · simp [mapSet, mapLookup, hk, ih]

theorem updateLoop_blanks (n : Nat) :
    ∀ (k : Nat) (next : Values) (idx : Int), 0 ≤ idx → idx + k = (n : Int) →
      updateLoop n next idx (List.replicate k []) = .ok next := by
  intro k
  induction k with
  | zero =>
    intro next idx h0 hk
    simp only [List.replicate, updateLoop]
    rw [if_neg (by omega)]
  | succ m ih =>
    intro next idx h0 hk
    simp only [List.replicate, updateLoop]
    rw [if_neg (by omega)]
    simp only [if_true]
    exact ih next (idx + 1) (by omega) (by omega)

/-! ### Claims -/

/-- C1: a successful `Values.Update` over a non-empty prior snapshot yields a
snapshot of the same length, and at the subscription level a successful
`subscription.update` keeps the stored length of an already-observed item. -/
theorem spec_c1 :
    (∀ (v : Values) (vals : List GoStr) (next : Values),
        0 < v.length → Values.update v vals = .ok next → next.length = v.length) ∧
    (∀ (s : Subscription) (item : Int) (vals : List GoStr) (s1 : Subscription)
        (cb : Int × Values) (old : Values),
        mapLookup s.last item = some old → 0 < old.length →
        subscriptionUpdate (some s) item vals = .ok s1 cb →
        mapLookup s1.last item = some cb.2 ∧ cb.2.length = old.length) := by
  have main : ∀ (v : Values) (vals : List GoStr) (next : Values),
      0 < v.length → Values.update v vals = .ok next → next.length = v.length := by
    intro v vals next hlen h
    unfold Values.update at h
    rw [if_neg (by omega)] at h
    exact updateLoop_ok_length v.length vals v 0 next rfl h
  refine ⟨main, ?_⟩
  intro s item vals s1 cb old hlook hlen h
  simp only [subscriptionUpdate] at h
  rw [hlook] at h
  simp only [Option.getD_some] at h
  cases hu : Values.update old vals with
  | ok next =>
    rw [hu] at h
    cases h
    exact ⟨mapLookup_mapSet_self s.last item next, main old vals next hlen hu⟩
  | err e => rw [hu] at h; cases h
  | oob => rw [hu] at h; cases h

/-- C1 witness: a concrete one-slot snapshot keeps its length through a
successful update. -/
theorem spec_c1_witness :
    ([some (str "9")] : Values).length = ([some (str "1")] : Values).length :=
  spec_c1.1 [some (str "1")] [str "9"] [some (str "9")] (by decide) (by decide)

/-- C2: a caret token `^` followed by an integer that parses to `k ≥ 0`
advances the cursor by exactly `k` without writing any slot, and the seed
scenario `["1","^2","5"]` over `["1","2","3","4"]` yields `["1","2","3","5"]`. -/
theorem spec_c2 :
    (∀ (n : Nat) (next : Values) (idx : Int) (s : GoStr) (k : Int) (rest : List GoStr),
        idx ≤ (n : Int) - 1 → goAtoi s = some k → 0 ≤ k →
        updateLoop n next idx (('^' :: s) :: rest) = updateLoop n next (idx + k) rest) ∧
    Values.update [some (str "1"), some (str "2"), some (str "3"), some (str "4")]
        [str "1", str "^2", str "5"] =
      .ok [some (str "1"), some (str "2"), some (str "3"), some (str "5")] := by
  constructor
  · intro n next idx s k rest hidx hk _hk0
    simp only [updateLoop, List.head?_cons, List.tail_cons, hk]
    rw [if_neg (by omega)]
    simp only [reduceIte]
    have harith : idx + k - 1 + 1 = idx + k := by omega
    rw [harith]
    simp
  · decide

/-- C2 witness: the caret step equation at a concrete state. -/
theorem spec_c2_witness :
    updateLoop 4 [none, none, none, none] 0 [('^' :: str "2")] =
      updateLoop 4 [none, none, none, none] 2 [] :=
  spec_c2.1 4 [none, none, none, none] 0 (str "2") 2 [] (by decide) (by decide) (by decide)

/-- C3: a `#` token writes a null slot and a `$` token writes an
empty-string slot; on the seed scenario the two renderings `"4,<nil>,6"` and
`"4,,6"` stay distinguishable. -/
theorem spec_c3 :
    (∀ (n : Nat) (next : Values) (idx : Int) (rest : List GoStr),
        0 ≤ idx → idx ≤ (n : Int) - 1 → next.length = n →
        updateLoop n next idx (['#'] :: rest) =
          updateLoop n (next.set idx.toNat none) (idx + 1) rest) ∧
    (∀ (n : Nat) (next : Values) (idx : Int) (rest : List GoStr),
        0 ≤ idx → idx ≤ (n : Int) - 1 → next.length = n →
        updateLoop n next idx (['$'] :: rest) =
          updateLoop n (next.set idx.toNat (some [])) (idx + 1) rest) ∧
    Values.update [some (str "1"), some (str "2"), some (str "3")]
        [str "4", str "#", str "6"] = .ok [some (str "4"), none, some (str "6")] ∧
    Values.string [some (str "4"), none, some (str "6")] = str "4,<nil>,6" ∧
    Values.update [some (str "1"), some (str "2"), some (str "3")]
        [str "4", str "$", str "6"] = .ok [some (str "4"), some [], some (str "6")] ∧
    Values.string [some (str "4"), some [], some (str "6")] = str "4,,6" ∧
    str "4,<nil>,6" ≠ str "4,,6" := by
  refine ⟨?_, ?_, by decide, by decide, by decide, by decide, by decide⟩
  · intro n next idx rest h0 hidx hlen
    have hw : writeSlot next idx none = some (next.set idx.toNat none) := by
      unfold writeSlot
      rw [if_pos (⟨h0, by omega⟩ : 0 ≤ idx ∧ idx < (next.length : Int))]
    simp only [updateLoop, hw]
    rw [if_neg (by omega)]
    simp
  · intro n next idx rest h0 hidx hlen
    have hw : writeSlot next idx (some []) = some (next.set idx.toNat (some [])) := by
      unfold writeSlot
      rw [if_pos (⟨h0, by omega⟩ : 0 ≤ idx ∧ idx < (next.length : Int))]
    simp only [updateLoop, hw]
    rw [if_neg (by omega)]
    simp

/-- C3 witness: the hash step equation at a concrete state. -/
theorem spec_c3_witness :
    updateLoop 2 [some (str "a"), some (str "b")] 0 [['#']] =
      updateLoop 2 [none, some (str "b")] 1 [] :=
  spec_c3.1 2 [some (str "a"), some (str "b")] 0 [] (by decide) (by decide) (by decide)

/-- C9: an update of `N` empty tokens over a snapshot of length `N > 0`
succeeds and returns the prior snapshot unchanged. -/
theorem spec_c9 (v : Values) (N : Nat) (hlen : v.length = N) (hpos : 0 < N) :
    Values.update v (List.replicate N []) = .ok v := by
  have h0 : ¬v.length = 0 := by omega
  simp only [Values.update, h0, if_false]
  rw [hlen]
  exact updateLoop_blanks N N v 0 (by omega) (by omega)

/-- C9 witness: the identity update on a concrete three-slot snapshot. -/
theorem spec_c9_witness :
    Values.update [some (str "1"), none, some (str "3")] (List.replicate 3 []) =
      .ok [some (str "1"), none, some (str "3")] :=
  spec_c9 [some (str "1"), none, some (str "3")] 3 (by decide) (by decide)

theorem cursorAfter_zero (vals : List GoStr) : cursorAfter vals 0 = 0 := by
  cases vals <;> rfl

theorem cursorAfter_cons (tok : GoStr) (rest : List GoStr) (k : Nat) :
    cursorAfter (tok :: rest) (k + 1) = tokenAdvance tok + cursorAfter rest k := rfl

theorem cursor_shift (value : GoStr) (rest : List GoStr) (idx : Int) (N : Int) :
    ((∀ k < (value :: rest).length, idx + cursorAfter (value :: rest) k ≤ N - 1) ∧
      idx + cursorAfter (value :: rest) (value :: rest).length = N) ↔
    (idx ≤ N - 1 ∧
      ((∀ k < rest.length, idx + tokenAdvance value + cursorAfter rest k ≤ N - 1) ∧
        idx + tokenAdvance value + cursorAfter rest rest.length = N)) := by
  constructor
  · rintro ⟨h1, h2⟩
    refine ⟨?_, fun k hk => ?_, ?_⟩
    · have := h1 0 (by simp)
      rw [cursorAfter_zero] at this
      omega
    · have := h1 (k + 1) (by simp only [List.length_cons]; omega)
      rw [cursorAfter_cons] at this
      omega
    · rw [List.length_cons, cursorAfter_cons] at h2
      omega
  · rintro ⟨h0, h1, h2⟩
    constructor
    · intro k hk
      cases k with
      | zero => rw [cursorAfter_zero]; omega
      | succ m =>
        have hm : m < rest.length := by
          simp only [List.length_cons] at hk
          omega
        have := h1 m hm
        rw [cursorAfter_cons]
        omega
    · rw [List.length_cons, cursorAfter_cons]
      omega

/-- Characterization of the token loop for token lists whose caret steps all
parse as non-negative integers: the loop succeeds exactly when the cursor
stays within the snapshot at each token and lands on the length, and it
never raises an out-of-range panic. -/
theorem updateLoop_char (n : Nat) (vals : List GoStr) :
    ∀ (next : Values) (idx : Int),
      next.length = n → 0 ≤ idx →
      (∀ tok ∈ vals, caretStepsParse tok = true) →
      (((updateLoop n next idx vals).isOk = true ↔
          ((∀ k < vals.length, idx + cursorAfter vals k ≤ (n : Int) - 1) ∧
            idx + cursorAfter vals vals.length = (n : Int))) ∧
        (updateLoop n next idx vals).isOob = false) := by
  induction vals with
  | nil =>
    intro next idx hlen h0 hall
    simp only [updateLoop, List.length_nil]
    by_cases hidx : idx = (n : Int)
    · rw [if_neg (by omega)]
      refine ⟨⟨fun _ => ⟨fun k hk => absurd hk (by omega), ?_⟩, fun _ => rfl⟩, rfl⟩
      rw [cursorAfter_zero]
      omega
    · rw [if_pos (by omega)]
      refine ⟨⟨fun hh => by simp [UpdateResult.isOk] at hh, ?_⟩, rfl⟩
      rintro ⟨-, h2⟩
      rw [cursorAfter_zero] at h2
      exact absurd (by omega : idx = (n : Int)) hidx
  | cons value rest ih =>
    intro next idx hlen h0 hall
    have hv : caretStepsParse value = true := hall value (by simp)
    have hrest : ∀ tok ∈ rest, caretStepsParse tok = true := fun t ht => hall t (by simp [ht])
    by_cases hover : idx > (n : Int) - 1
    · simp only [updateLoop, if_pos hover]
      refine ⟨⟨fun hh => by simp [UpdateResult.isOk] at hh, ?_⟩, rfl⟩
      rintro ⟨h1, -⟩
      have := h1 0 (by simp)
      rw [cursorAfter_zero] at this
      exact absurd this (by omega)
    by_cases h1 : value = []
    · subst h1
      have heq : updateLoop n next idx ([] :: rest) = updateLoop n next (idx + 1) rest := by
        simp only [updateLoop]
        rw [if_neg hover]
        simp
      have hta : tokenAdvance ([] : GoStr) = 1 := by decide
      have ihr := ih next (idx + 1) hlen (by omega) hrest
      rw [heq]
      refine ⟨?_, ihr.2⟩
      rw [ihr.1, cursor_shift, hta]
      exact (and_iff_right (by omega)).symm
    by_cases h2 : value = ['#']
    · subst h2
      have hw : writeSlot next idx none = some (next.set idx.toNat none) := by
        unfold writeSlot
        rw [if_pos (⟨h0, by omega⟩ : 0 ≤ idx ∧ idx < (next.length : Int))]
      have heq : updateLoop n next idx (['#'] :: rest) =
          updateLoop n (next.set idx.toNat none) (idx + 1) rest := by
        simp only [updateLoop, hw]
        rw [if_neg hover]
        simp
      have hta : tokenAdvance (['#'] : GoStr) = 1 := by decide
      have ihr := ih (next.set idx.toNat none) (idx + 1) (by simp [hlen]) (by omega) hrest
      rw [heq]
      refine ⟨?_, ihr.2⟩
      rw [ihr.1, cursor_shift, hta]
      exact (and_iff_right (by omega)).symm
    by_cases h3 : value = ['$']
    · subst h3
      have hw : writeSlot next idx (some []) = some (next.set idx.toNat (some [])) := by
        unfold writeSlot
        rw [if_pos (⟨h0, by omega⟩ : 0 ≤ idx ∧ idx < (next.length : Int))]
      have heq : updateLoop n next idx (['$'] :: rest) =
          updateLoop n (next.set idx.toNat (some [])) (idx + 1) rest := by
        simp only [updateLoop, hw]
        rw [if_neg hover]
        simp
      have hta : tokenAdvance (['$'] : GoStr) = 1 := by decide
      have ihr := ih (next.set idx.toNat (some [])) (idx + 1) (by simp [hlen]) (by omega) hrest
      rw [heq]
      refine ⟨?_, ihr.2⟩
      rw [ihr.1, cursor_shift, hta]
      exact (and_iff_right (by omega)).symm
    by_cases h4 : value.head? = some '^'
    · obtain ⟨k, hk, hk0⟩ : ∃ k, goAtoi value.tail = some k ∧ 0 ≤ k := by
        unfold caretStepsParse at hv
        rw [if_pos h4] at hv
        cases hg : goAtoi value.tail with
        | none => rw [hg] at hv; simp at hv
        | some k =>
          rw [hg] at hv
          simp at hv
          exact ⟨k, rfl, hv⟩
      have heq : updateLoop n next idx (value :: rest) = updateLoop n next (idx + k) rest := by
        simp only [updateLoop]
        rw [if_neg hover, if_neg h1, if_neg h2, if_neg h3, if_pos h4]
        simp only [hk]
        have harith : idx + k - 1 + 1 = idx + k := by omega
        rw [harith]
      have hta : tokenAdvance value = k := by
        unfold tokenAdvance
        rw [if_pos h4, hk]
        rfl
      have ihr := ih next (idx + k) hlen (by omega) hrest
      rw [heq]
      refine ⟨?_, ihr.2⟩
      rw [ihr.1, cursor_shift, hta]
      exact (and_iff_right (by omega)).symm
    · have hw : writeSlot next idx (some ((pathUnescape value).getD value)) =
          some (next.set idx.toNat (some ((pathUnescape value).getD value))) := by
        unfold writeSlot
        rw [if_pos (⟨h0, by omega⟩ : 0 ≤ idx ∧ idx < (next.length : Int))]
      have heq : updateLoop n next idx (value :: rest) =
          updateLoop n (next.set idx.toNat (some ((pathUnescape value).getD value)))
            (idx + 1) rest := by
        simp only [updateLoop, hw]
        rw [if_neg hover, if_neg h1, if_neg h2, if_neg h3, if_neg h4]
      have hta : tokenAdvance value = 1 := by
        unfold tokenAdvance
        rw [if_neg h4]
      have ihr := ih (next.set idx.toNat (some ((pathUnescape value).getD value)))
        (idx + 1) (by simp [hlen]) (by omega) hrest
      rw [heq]
      refine ⟨?_, ihr.2⟩
      rw [ihr.1, cursor_shift, hta]
      exact (and_iff_right (by omega)).symm

/-- The token loop never raises an out-of-range panic when no token is a
caret with a negative parsed step. -/
theorem updateLoop_no_oob (n : Nat) (vals : List GoStr) :
    ∀ (next : Values) (idx : Int),
      next.length = n → 0 ≤ idx →
      (∀ tok ∈ vals, notNegCaret tok = true) →
      (updateLoop n next idx vals).isOob = false := by
  induction vals with
  | nil =>
    intro next idx hlen h0 hall
    simp only [updateLoop]
    split <;> rfl
  | cons value rest ih =>
    intro next idx hlen h0 hall
    have hv : notNegCaret value = true := hall value (by simp)
    have hrest : ∀ tok ∈ rest, notNegCaret tok = true := fun t ht => hall t (by simp [ht])
    by_cases hover : idx > (n : Int) - 1
    · simp only [updateLoop, if_pos hover]
      rfl
    by_cases h1 : value = []
    · subst h1
      have heq : updateLoop n next idx ([] :: rest) = updateLoop n next (idx + 1) rest := by
        simp only [updateLoop]
        rw [if_neg hover]
        simp
      rw [heq]
      exact ih next (idx + 1) hlen (by omega) hrest
    by_cases h2 : value = ['#']
    · subst h2
      have hw : writeSlot next idx none = some (next.set idx.toNat none) := by
        unfold writeSlot
        rw [if_pos (⟨h0, by omega⟩ : 0 ≤ idx ∧ idx < (next.length : Int))]
      have heq : updateLoop n next idx (['#'] :: rest) =
          updateLoop n (next.set idx.toNat none) (idx + 1) rest := by
        simp only [updateLoop, hw]
        rw [if_neg hover]
        simp
      rw [heq]
      exact ih _ (idx + 1) (by simp [hlen]) (by omega) hrest
    by_cases h3 : value = ['$']
    · subst h3
      have hw : writeSlot next idx (some []) = some (next.set idx.toNat (some [])) := by
        unfold writeSlot
        rw [if_pos (⟨h0, by omega⟩ : 0 ≤ idx ∧ idx < (next.length : Int))]
      have heq : updateLoop n next idx (['$'] :: rest) =
          updateLoop n (next.set idx.toNat (some [])) (idx + 1) rest := by
        simp only [updateLoop, hw]
        rw [if_neg hover]
        simp
      rw [heq]
      exact ih _ (idx + 1) (by simp [hlen]) (by omega) hrest
    by_cases h4 : value.head? = some '^'
    · cases hg : goAtoi value.tail with
      | none =>
        simp only [updateLoop]
        rw [if_neg hover, if_neg h1, if_neg h2, if_neg h3, if_pos h4]
        simp only [hg]
        rfl
      | some k =>
        have hk0 : 0 ≤ k := by
          unfold notNegCaret at hv
          rw [if_pos h4, hg] at hv
          simpa using hv
        have heq : updateLoop n next idx (value :: rest) =
            updateLoop n next (idx + k) rest := by
          simp only [updateLoop]
          rw [if_neg hover, if_neg h1, if_neg h2, if_neg h3, if_pos h4]
          simp only [hg]
          have harith : idx + k - 1 + 1 = idx + k := by omega
          rw [harith]
        rw [heq]
        exact ih next (idx + k) hlen (by omega) hrest
    · have hw : writeSlot next idx (some ((pathUnescape value).getD value)) =
          some (next.set idx.toNat (some ((pathUnescape value).getD value))) := by
        unfold writeSlot
        rw [if_pos (⟨h0, by omega⟩ : 0 ≤ idx ∧ idx < (next.length : Int))]
      have heq : updateLoop n next idx (value :: rest) =
          updateLoop n (next.set idx.toNat (some ((pathUnescape value).getD value)))
            (idx + 1) rest := by
        simp only [updateLoop, hw]
        rw [if_neg hover, if_neg h1, if_neg h2, if_neg h3, if_neg h4]
      rw [heq]
      exact ih _ (idx + 1) (by simp [hlen]) (by omega) hrest

/-- C5 counterexample: the update `["x","^0"]` over the one-slot snapshot
`["a"]` is rejected by `Values.Update` even though its tokens are well-formed
and the cursor after consuming all of them equals the snapshot length — so
"error exactly when the final cursor differs from the length" fails. -/
theorem spec_c5_counterexample :
    (Values.update [some (str "a")] [str "x", str "^0"]).isErr = true ∧
    cursorAfter [str "x", str "^0"] 2 = (([some (str "a")] : Values).length : Int) ∧
    caretStepsParse (str "x") = true ∧ caretStepsParse (str "^0") = true := by decide

/-- C5 (amended): over a non-empty prior snapshot and tokens whose caret
steps parse as non-negative integers, `Values.Update` succeeds exactly when
the cursor is at most length−1 as each token is consumed *and* the final
cursor equals the length; it otherwise returns an error (never a panic). -/
theorem spec_c5_amended (v : Values) (vals : List GoStr)
    (hlen : 0 < v.length) (hc : ∀ tok ∈ vals, caretStepsParse tok = true) :
    ((Values.update v vals).isOk = true ↔
      ((∀ k < vals.length, cursorAfter vals k ≤ (v.length : Int) - 1) ∧
        cursorAfter vals vals.length = (v.length : Int))) ∧
    (Values.update v vals).isOob = false := by
  have h0 : ¬v.length = 0 := by omega
  simp only [Values.update, h0, if_false]
  have hchar := updateLoop_char v.length vals v 0 rfl (by omega) hc
  simp only [zero_add] at hchar
  exact hchar

/-- C5 witness: a well-formed two-token update over a two-slot snapshot
satisfies the cursor conditions and indeed succeeds. -/
theorem spec_c5_amended_witness :
    (Values.update [some (str "1"), some (str "2")] [str "3", str "4"]).isOk = true :=
  ((spec_c5_amended [some (str "1"), some (str "2")] [str "3", str "4"]
    (by decide) (by decide)).1).mpr (by decide)

/-- C10 counterexample: a caret token whose suffix parses as a negative
integer drives the cursor negative, and the following write token indexes
the slice out of range — `Values.Update` panics instead of returning. -/
theorem spec_c10_counterexample :
    Values.update [some (str "a"), some (str "b")] [str "^-5", str "x"] = .oob := by decide

/-- C10 (amended): `Values.Update` never panics on token lists in which no
caret step parses as a negative integer; every slice index it performs is
then in bounds. -/
theorem spec_c10_amended (v : Values) (vals : List GoStr)
    (h : ∀ tok ∈ vals, notNegCaret tok = true) :
    (Values.update v vals).isOob = false := by
  simp only [Values.update]
  exact updateLoop_no_oob _ vals _ 0 rfl (by omega) h

/-- C10 witness: a list with a non-negative caret skip and an unparseable
caret never panics. -/
theorem spec_c10_amended_witness :
    (Values.update [some (str "a"), some (str "b"), some (str "c")]
      [str "^2", str "^x"]).isOob = false :=
  spec_c10_amended [some (str "a"), some (str "b"), some (str "c")]
    [str "^2", str "^x"] (by decide)

/-- C4: `handleUpdate` on a U message whose subscription id is not in the
registry logs the warning but then calls `update` on the nil subscription,
dereferencing a nil pointer — the reader crashes instead of dropping the
update; a registered id is handled normally. -/
theorem spec_c4_crash :
    handleUpdate [] ⟨[str "x"], 5, 1⟩ = .crash true ∧
    handleUpdate [(1, ⟨[]⟩)] ⟨[str "x"], 1, 1⟩ =
      .ok [(1, ⟨[(1, [some (str "x")])]⟩)] (some (1, [some (str "x")])) false := by decide

/-- C6 counterexample: `Subscribe` before any CONOK returns the error
`"no session"`, whose text does not contain "not connected". -/
theorem spec_c6_counterexample :
    subscribe ⟨none, [], 0, 0⟩ (str "REQOK,1") =
      ⟨.error (str "no session"), ⟨none, [], 0, 0⟩, 0⟩ ∧
    containsSubstr (str "no session") (str "not connected") = false := by decide

/-- C6 (amended): with no session id set, `Subscribe` returns the
`"no session"` error, issues no control POST, and leaves the state (registry
and counters) unchanged. -/
theorem spec_c6_amended (st : SessionState) (response : GoStr)
    (h : st.sessionID = none) :
    subscribe st response = ⟨.error (str "no session"), st, 0⟩ := by
  unfold subscribe
  rw [h]

/-- C6 witness: the unbound gate at a concrete state with a non-trivial
registry and counters. -/
theorem spec_c6_amended_witness :
    subscribe ⟨none, [(3, ⟨[]⟩)], 7, 9⟩ (str "whatever") =
      ⟨.error (str "no session"), ⟨none, [(3, ⟨[]⟩)], 7, 9⟩, 0⟩ :=
  spec_c6_amended ⟨none, [(3, ⟨[]⟩)], 7, 9⟩ (str "whatever") rfl

/-- The chained `TrimSuffix` calls of the source remove exactly one trailing
CRLF pair, or a lone trailing LF or CR — the spec's "trimming a trailing
CR/LF". -/
theorem trim_eq_spec (s : GoStr) :
    trimOne (trimOne s '\n') '\r' = specTrimCRLF s := by
  rcases hr : s.reverse with _ | ⟨d, rest⟩
  · simp only [trimOne, specTrimCRLF, hr]
  · by_cases hd : d = '\n'
    · subst hd
      simp only [trimOne, specTrimCRLF, hr, List.reverse_reverse]
      rcases rest with _ | ⟨e, rest2⟩
      · simp [trimOne]
      · by_cases he : e = '\r'
        · subst he
          simp [trimOne]
        · simp [trimOne, he]
    · by_cases hd2 : d = '\r'
      · subst hd2
        simp [trimOne, specTrimCRLF, hr]
      · simp [trimOne, specTrimCRLF, hr, hd, hd2]

/-- C8: every non-200 response maps to `lsError`; a body that is non-empty
after trimming a trailing CR/LF appears verbatim behind `"lightstreamer: "`,
and an empty one yields the generic `"http: <code> <status>"` error. -/
theorem spec_c8 (resp : HTTPResponse) (hcode : resp.statusCode ≠ 200) :
    callStatus resp = .error (lsError resp) ∧
    (specTrimCRLF resp.body ≠ [] →
      lsError resp = str "lightstreamer: " ++ specTrimCRLF resp.body) ∧
    (specTrimCRLF resp.body = [] →
      lsError resp = str "http: " ++ natToStr resp.statusCode ++ [' '] ++
        (if resp.status ≠ [] then resp.status else statusText resp.statusCode)) := by
  refine ⟨by simp [callStatus, hcode], ?_, ?_⟩
  · intro hne
    simp only [lsError, trim_eq_spec]
    rw [if_pos hne]
  · intro he
    simp only [lsError, trim_eq_spec, he]
    simp

/-- C8 witness: a concrete 400 response with a CRLF-terminated body maps to
the `lightstreamer:`-prefixed error. -/
theorem spec_c8_witness :
    callStatus ⟨400, str "400 Bad Request", str "oops" ++ ['\r', '\n']⟩ =
      .error (lsError ⟨400, str "400 Bad Request", str "oops" ++ ['\r', '\n']⟩) ∧
    lsError ⟨400, str "400 Bad Request", str "oops" ++ ['\r', '\n']⟩ =
      str "lightstreamer: " ++ specTrimCRLF (str "oops" ++ ['\r', '\n']) :=
  ⟨(spec_c8 ⟨400, str "400 Bad Request", str "oops" ++ ['\r', '\n']⟩ (by decide)).1,
    (spec_c8 ⟨400, str "400 Bad Request", str "oops" ++ ['\r', '\n']⟩ (by decide)).2.1
      (by decide)⟩

/-- C7 counterexample: a CONOK line with a non-numeric request limit is
rejected, but the parse error carries the offending argument, not the
offending line — the line is not a substring of the error text. -/
theorem spec_c7_counterexample :
    ParseSessionMessage (str "CONOK,sid,a,5000,*") =
      .error (str "parse: invalid request limit \"a\": strconv.Atoi: parsing \"a\": invalid syntax") ∧
    containsSubstr
      (str "parse: invalid request limit \"a\": strconv.Atoi: parsing \"a\": invalid syntax")
      (str "CONOK,sid,a,5000,*") = false := by decide

/-- C7 (amended): for every recognised message kind with a fixed argument
signature, a wrong argument count or an argument that fails integer/float
parsing makes the parser return an error, and `parseMessage` propagates it
wrapped as `"parse: %w"` — the error names the offending argument or count,
not the whole line. -/
theorem spec_c7_amended :
    (∀ parts : List GoStr, parts.length ≠ 4 → exErr (parseCONOK parts) = true) ∧
    (∀ parts : List GoStr, parts.length ≠ 1 → exErr (parseSERVNAME parts) = true) ∧
    (∀ parts : List GoStr, parts.length ≠ 1 → exErr (parseCLIENTIP parts) = true) ∧
    (∀ parts : List GoStr, parts.length ≠ 1 → exErr (parseCONS parts) = true) ∧
    (∀ parts : List GoStr, parts.length ≠ 1 → exErr (parseSYNC parts) = true) ∧
    (∀ parts : List GoStr, parts.length ≠ 1 → exErr (parseLOOP parts) = true) ∧
    (∀ parts : List GoStr, parts.length ≠ 2 → exErr (parseEND parts) = true) ∧
    (∀ parts : List GoStr, parts.length ≠ 3 → exErr (parseU parts) = true) ∧
    (∀ parts : List GoStr, parts.length ≠ 3 → exErr (parseSUBOK parts) = true) ∧
    (∀ parts : List GoStr, parts.length ≠ 3 → exErr (parseCONF parts) = true) ∧
    (∀ parts : List GoStr, parts.length ≠ 1 → exErr (parsePROG parts) = true) ∧
    (∀ parts : List GoStr, parts.length ≠ 1 → exErr (parseREQOK parts) = true) ∧
    (∀ parts : List GoStr, parts.length ≠ 3 → exErr (parseREQERR parts) = true) ∧
    (∀ sid rl ka cl : GoStr, goAtoi rl = none ∨ goAtoi ka = none →
      exErr (parseCONOK [sid, rl, ka, cl]) = true) ∧
    (∀ bw : GoStr, bw ≠ str "unlimited" → goParseFloat bw = none →
      exErr (parseCONS [bw]) = true) ∧
    (∀ s : GoStr, goAtoi s = none → exErr (parseSYNC [s]) = true) ∧
    (∀ s : GoStr, goAtoi s = none → exErr (parseLOOP [s]) = true) ∧
    (∀ c m : GoStr, goAtoi c = none → exErr (parseEND [c, m]) = true) ∧
    (∀ a b c : GoStr, goAtoi a = none ∨ goAtoi b = none →
      exErr (parseU [a, b, c]) = true) ∧
    (∀ a b c : GoStr, goAtoi a = none ∨ goAtoi b = none ∨ goAtoi c = none →
      exErr (parseSUBOK [a, b, c]) = true) ∧
    (∀ a b c : GoStr, goAtoi a = none ∨ (b ≠ str "unlimited" ∧ goParseFloat b = none) →
      exErr (parseCONF [a, b, c]) = true) ∧
    (∀ s : GoStr, goAtoi s = none → exErr (parsePROG [s]) = true) ∧
    (∀ s : GoStr, goAtoi s = none → exErr (parseREQOK [s]) = true) ∧
    (∀ a b m : GoStr, goAtoi a = none ∨ goAtoi b = none →
      exErr (parseREQERR [a, b, m]) = true) ∧
    (∀ (line p0 : GoStr) (rest : List GoStr) f (e : GoStr),
      splitOn ',' line = p0 :: rest → sessionMessageParsers p0 = some f →
      f rest = .error e → ParseSessionMessage line = .error (str "parse: " ++ e)) ∧
    (∀ (line p0 : GoStr) (rest : List GoStr) f (e : GoStr),
      splitOn ',' line = p0 :: rest → controlMessageParsers p0 = some f →
      f rest = .error e → ParseControlMessage line = .error (str "parse: " ++ e)) := by
  refine ⟨?_, ?_, ?_, ?_, ?_, ?_, ?_, ?_, ?_, ?_, ?_, ?_, ?_, ?_, ?_, ?_, ?_, ?_, ?_, ?_,
    ?_, ?_, ?_, ?_, ?_, ?_⟩
  · intro parts h
    rcases parts with _ | ⟨a, _ | ⟨b, _ | ⟨c, _ | ⟨d, t⟩⟩⟩⟩
    · rfl
    · rfl
    · rfl
    · rfl
    · cases t with
      | nil => simp at h
      | cons e t2 => rfl
  · intro parts h
    rcases parts with _ | ⟨a, t⟩
    · rfl
    · cases t with
      | nil => simp at h
      | cons e t2 => rfl
  · intro parts h
    rcases parts with _ | ⟨a, t⟩
    · rfl
    · cases t with
      | nil => simp at h
      | cons e t2 => rfl
  · intro parts h
    rcases parts with _ | ⟨a, t⟩
    · rfl
    · cases t with
      | nil => simp at h
      | cons e t2 => rfl
  · intro parts h
    rcases parts with _ | ⟨a, t⟩
    · rfl
    · cases t with
      | nil => simp at h
      | cons e t2 => rfl
  · intro parts h
    rcases parts with _ | ⟨a, t⟩
    · rfl
    · cases t with
      | nil => simp at h
      | cons e t2 => rfl
  · intro parts h
    rcases parts with _ | ⟨a, _ | ⟨b, t⟩⟩
    · rfl
    · rfl
    · cases t with
      | nil => simp at h
      | cons e t2 => rfl
  · intro parts h
    rcases parts with _ | ⟨a, _ | ⟨b, _ | ⟨c, t⟩⟩⟩
    · rfl
    · rfl
    · rfl
    · cases t with
      | nil => simp at h
      | cons e t2 => rfl
  · intro parts h
    rcases parts with _ | ⟨a, _ | ⟨b, _ | ⟨c, t⟩⟩⟩
    · rfl
    · rfl
    · rfl
    · cases t with
      | nil => simp at h
      | cons e t2 => rfl
  · intro parts h
    rcases parts with _ | ⟨a, _ | ⟨b, _ | ⟨c, t⟩⟩⟩
    · rfl
    · rfl
    · rfl
    · cases t with
      | nil => simp at h
      | cons e t2 => rfl
  · intro parts h
    rcases parts with _ | ⟨a, t⟩
    · rfl
    · cases t with
      | nil => simp at h
      | cons e t2 => rfl
  · intro parts h
    rcases parts with _ | ⟨a, t⟩
    · rfl
    · cases t with
      | nil => simp at h
      | cons e t2 => rfl
  · intro parts h
    rcases parts with _ | ⟨a, _ | ⟨b, _ | ⟨c, t⟩⟩⟩
    · rfl
    · rfl
    · rfl
    · cases t with
      | nil => simp at h
      | cons e t2 => rfl
  · rintro sid rl ka cl (h | h)
    · simp [parseCONOK, h, exErr]
    · cases hr : goAtoi rl with
      | none => simp [parseCONOK, hr, exErr]
      | some r => simp [parseCONOK, hr, h, exErr]
  · intro bw h1 h2
    simp [parseCONS, parseFloatWithUnlimited, h1, h2, exErr]
  · intro s h
    simp [parseSYNC, h, exErr]
  · intro s h
    simp [parseLOOP, h, exErr]
  · intro c m h
    simp [parseEND, h, exErr]
  · rintro a b c (h | h)
    · simp [parseU, h, exErr]
    · cases ha : goAtoi a with
      | none => simp [parseU, ha, exErr]
      | some sa => simp [parseU, ha, h, exErr]
  · rintro a b c (h | h | h)
    · simp [parseSUBOK, h, exErr]
    · cases ha : goAtoi a with
      | none => simp [parseSUBOK, ha, exErr]
      | some sa => simp [parseSUBOK, ha, h, exErr]
    · cases ha : goAtoi a with
      | none => simp [parseSUBOK, ha, exErr]
      | some sa =>
        cases hb : goAtoi b with
        | none => simp [parseSUBOK, ha, hb, exErr]
        | some sb => simp [parseSUBOK, ha, hb, h, exErr]
  · rintro a b c (h | ⟨hb1, hb2⟩)
    · simp [parseCONF, h, exErr]
    · cases ha : goAtoi a with
      | none => simp [parseCONF, ha, exErr]
      | some sa => simp [parseCONF, ha, parseFloatWithUnlimited, hb1, hb2, exErr]
  · intro s h
    simp [parsePROG, h, exErr]
  · intro s h
    simp [parseREQOK, h, exErr]
  · rintro a b m (h | h)
    · simp [parseREQERR, h, exErr]
    · cases ha : goAtoi a with
      | none => simp [parseREQERR, ha, exErr]
      | some sa => simp [parseREQERR, ha, h, exErr]
  · intro line p0 rest f e hsplit hpar hf
    unfold ParseSessionMessage parseMessage
    rw [hsplit]
    simp [hpar, hf]
  · intro line p0 rest f e hsplit hpar hf
    unfold ParseControlMessage parseMessage
    rw [hsplit]
    simp [hpar, hf]

/-- C7 witness: the CONOK arity check at a concrete one-argument input. -/
theorem spec_c7_amended_witness : exErr (parseCONOK [str "sid"]) = true :=
  spec_c7_amended.1 [str "sid"] (by decide)

end ISS
